import Mathlib

/-!
Verification of the OLMAR (Online Moving Average Reversion) portfolio
strategy in `olmar.py`, as a shallow embedding over exact rationals.
Numpy arrays become `List ℚ` / `List (List ℚ)`; Python slices become
`drop`/`take`; division is exact rational division (note: `x / 0 = 0` in ℚ,
where numpy would produce inf/NaN — theorems about degenerate divisions
state the rational value and the result files record the float reading).
Helpers from the absent `util` / `portfolio` modules are modelled from the
spec and marked as such in their doc comments.
-/

/-- Per-day open and close price matrices, indexed (day, asset). -/
structure MarketData where
  op : List (List ℚ)
  cl : List (List ℚ)
deriving Repr, DecidableEq

/-- The OLMAR strategy state: the fields of the Python instance that the
algorithmic methods read or write. -/
structure OLMARState where
  window : ℕ
  eps : ℚ
  window_hist : List ℕ
  eps_hist : List ℚ
  window_range : List ℕ
  eps_range : List ℚ
  b : List ℚ
  num_stocks : ℕ
  data : MarketData
  data_train : Option MarketData
deriving Repr, DecidableEq

/-- Python tail slice `l[-k:]` for `k > 0`: the last `min k l.length`
elements of `l`. -/
def pyTail (l : List α) (k : ℕ) : List α :=
  l.drop (l.length - k)

/-- `np.mean` of a vector (mean of the empty list modelled as 0). -/
def listMean (l : List ℚ) : ℚ := l.sum / (l.length : ℚ)

/-- Column `i` mean of a matrix: `np.mean(rows, axis=0)` at column `i`. -/
def colMean (rows : List (List ℚ)) (i : ℕ) : ℚ :=
  listMean (rows.map (fun r => r.getD i 0))

/-- Dot product of two vectors (`np.dot`). -/
def dotProd (a b : List ℚ) : ℚ :=
  (List.zipWith (fun x y => x * y) a b).sum

/-- 1-norm: sum of absolute values (`np.linalg.norm(·, ord=1)`). -/
def l1norm (l : List ℚ) : ℚ := (l.map (fun x => |x|)).sum

/-- Squared 2-norm: sum of squares.  The code only ever uses
`pow(l2_norm, 2)` and the test `l2_norm == 0`, both of which are exactly
expressed by the squared norm. -/
def l2normSq (l : List ℚ) : ℚ := (l.map (fun x => x * x)).sum

/-- Modelled from the spec: `util.silent_divide`, the divide-with-zero-guard
helper (absent from src/) — elementwise division returning 0 where the
denominator is 0. -/
def silent_divide (a b : ℚ) : ℚ :=
  if b = 0 then 0 else a / b

/-- Modelled from the spec: `util.get_avail_stocks` / `util.get_available_inds`
(absent from src/) — the indices of assets available on the day, an asset
being unavailable when its open price is non-positive/missing. -/
def avail_idxs (today_op : List ℚ) (n : ℕ) : List ℕ :=
  (List.range n).filter (fun i => decide (0 < today_op.getD i 0))

/-- Modelled from the spec: `util.get_uniform_allocation` (absent from src/) —
the uniform allocation scaled so unavailable assets (zero/non-positive open
price) receive zero weight, normalized across available assets. -/
def get_uniform_allocation (num_stocks : ℕ) (op : List ℚ) : List ℚ :=
  (List.range num_stocks).map (fun i =>
    if 0 < op.getD i 0 then 1 / ((avail_idxs op num_stocks).length : ℚ) else 0)

/-- `OLMAR.get_window_prices(day, window)`: returns the effective window,
the close-price window matrix and the day's opening-price row. -/
def get_window_prices (s : OLMARState) (day window : ℕ) :
    ℕ × List (List ℚ) × List ℚ :=
  let today_op := s.data.op.getD day []
  if s.data_train.isNone ∨ window ≤ day then
    let w := if day < window then day else window
    (w, (s.data.cl.drop (day - w)).take w, today_op)
  else
    let train_cl := (s.data_train.getD ⟨[], []⟩).cl
    if day = 0 then
      (window, pyTail train_cl window, today_op)
    else
      (window, pyTail train_cl (window - day) ++ s.data.cl.take day, today_op)

/-- `OLMAR.predict_price_relatives(day)`: the per-asset mean of the close
window with today's open row appended, divided by today's open with a
zero-guard. -/
def predict_price_relatives (s : OLMARState) (day : ℕ) : List ℚ :=
  (List.range s.num_stocks).map (fun i =>
    silent_divide
      (colMean ((get_window_prices s day s.window).2.1 ++
        [(get_window_prices s day s.window).2.2]) i)
      ((get_window_prices s day s.window).2.2.getD i 0))

/-- `OLMAR.compute_lambda(ppr_avail, mean_ppr, avail_idxs)`. -/
def compute_lambda (s : OLMARState) (ppr_avail : List ℚ) (mean_ppr : ℚ)
    (idxs : List ℕ) : ℚ :=
  if l2normSq (ppr_avail.map (fun x => x - mean_ppr)) = 0 then 0
  else
    max 0 ((s.eps - dotProd (idxs.map (fun i => s.b.getD i 0)) ppr_avail) /
      l2normSq (ppr_avail.map (fun x => x - mean_ppr)))

/-- The step size actually used by `get_new_allocation`:
`lam = min(100000, self.compute_lambda(...))`. -/
def lambda_used (s : OLMARState) (ppr_avail : List ℚ) (mean_ppr : ℚ)
    (idxs : List ℕ) : ℚ :=
  min 100000 (compute_lambda s ppr_avail mean_ppr idxs)

/-- The predicted price relatives of the available stocks
(`ppr_avail = predicted_price_rel[avail_idxs]`). -/
def pprAvail (s : OLMARState) (day : ℕ) : List ℚ :=
  (avail_idxs (s.data.op.getD day []) s.num_stocks).map
    (fun i => (predict_price_relatives s day).getD i 0)

/-- The unnormalized new allocation built in `get_new_allocation`'s loop:
assets with strictly positive predicted relative get
`b[i] + lam * (ppr[i] - mean_ppr)`, every other entry stays 0. -/
def new_b_unnorm (s : OLMARState) (day : ℕ) : List ℚ :=
  (List.range s.num_stocks).map (fun i =>
    if 0 < (predict_price_relatives s day).getD i 0 then
      s.b.getD i 0 +
        lambda_used s (pprAvail s day) (listMean (pprAvail s day))
          (avail_idxs (s.data.op.getD day []) s.num_stocks) *
        ((predict_price_relatives s day).getD i 0 - listMean (pprAvail s day))
    else 0)

/-- `OLMAR.get_new_allocation(day, init)`. -/
def get_new_allocation (s : OLMARState) (day : ℕ) (init : Bool) : List ℚ :=
  if init ∧ s.data_train.isNone then
    get_uniform_allocation s.num_stocks (s.data.op.getD day [])
  else
    (new_b_unnorm s day).map (fun x => (1 / l1norm (new_b_unnorm s day)) * x)

/-- Python `max(l)` for a nonempty list (0 as a junk value for `[]`). -/
def listMax (l : List ℚ) : ℚ := l.foldl max (l.headD 0)

/-- Python `l.index(max(l))`: index of the first occurrence of the maximum. -/
def argmax_idx (l : List ℚ) : ℕ :=
  l.findIdx (fun x => decide (x = listMax l))

/-- `itertools.product(window_range, eps_range)` as a list of pairs. -/
def hyp_combos (s : OLMARState) : List (ℕ × ℚ) :=
  s.window_range.flatMap (fun w => s.eps_range.map (fun e => (w, e)))

/-- The Sharpe ratio of each candidate pair, in grid order
(`sharpe_ratios` in the source, with the trial simulation abstracted as
`score`). -/
def tune_scores (s : OLMARState) (score : ℕ → ℚ → ℚ) : List ℚ :=
  (hyp_combos s).map (fun p => score p.1 p.2)

/-- `hyp_combos[sharpe_ratios.index(max(sharpe_ratios))]`: the first
candidate pair achieving the maximal Sharpe ratio. -/
def tune_best (s : OLMARState) (score : ℕ → ℚ → ℚ) : ℕ × ℚ :=
  (hyp_combos s).getD (argmax_idx (tune_scores s score)) (s.window, s.eps)

/-- `OLMAR.tune_hyperparams(cur_day)`.  The nested trial simulation
(`Portfolio.run` plus `util.empirical_sharpe_ratio`, both absent from src/)
is modelled from the spec as an abstract scoring function `score win eps`
giving the trial's Sharpe ratio for a `(window, eps)` candidate. -/
def tune_hyperparams (s : OLMARState) (cur_day : ℕ) (score : ℕ → ℚ → ℚ) :
    OLMARState :=
  if cur_day > 10 then
    { s with
      window := (tune_best s score).1
      eps := (tune_best s score).2
      eps_hist := s.eps_hist ++ [(tune_best s score).2]
      window_hist := s.window_hist ++ [(tune_best s score).1] }
  else
    s

/-- Contents of a stored hyperparameter file, as loaded by
`util.load_hyperparams` (the loader itself is plumbing; the model takes the
loaded values directly). -/
structure HyperparamsFile where
  window : Int
  eps : ℚ
deriving Repr, DecidableEq

/-- `OLMAR.__init__`: validation of the passed `eps` / `window`, then the
optional override of both from a stored results directory. -/
def OLMAR_init (market_data : MarketData) (market_data_train : Option MarketData)
    (window : Int) (eps : ℚ) (window_range : List ℕ) (eps_range : List ℚ)
    (init_b : List ℚ) (past_results : Option HyperparamsFile) :
    Except String OLMARState :=
  if eps ≤ 1 then
    Except.error "Epsilon must be > 1."
  else if window < 1 then
    Except.error "Window length must be at least 1, and it is recommended that the window be >= 3."
  else
    let wEff : Int := match past_results with
      | some h => h.window
      | none => window
    let eEff : ℚ := match past_results with
      | some h => h.eps
      | none => eps
    Except.ok
      { window := wEff.toNat
        eps := eEff
        window_hist := [wEff.toNat]
        eps_hist := [eEff]
        window_range := window_range
        eps_range := eps_range
        b := init_b
        num_stocks := (market_data.op.getD 0 []).length
        data := market_data
        data_train := market_data_train }

/-- `Except.isOk` as a plain Bool (avoiding library-version differences). -/
def exceptOk : Except String OLMARState → Bool
  | Except.ok _ => true
  | Except.error _ => false

/-! ## Concrete instances used in counterexamples and witnesses -/

/-- A valid construction over one live day on which every asset is
unavailable (all open prices 0). -/
def stC1 : OLMARState :=
  { window := 1, eps := 13/10, window_hist := [1], eps_hist := [13/10],
    window_range := [], eps_range := [], b := [1/2, 1/2], num_stocks := 2,
    data := { op := [[0, 0]], cl := [[5, 5]] }, data_train := none }

/-- A one-day universe with positive open prices. -/
def stC1W : OLMARState :=
  { window := 1, eps := 13/10, window_hist := [1], eps_hist := [13/10],
    window_range := [], eps_range := [], b := [1/2, 1/2], num_stocks := 2,
    data := { op := [[1, 2]], cl := [[3, 4]] }, data_train := none }

/-- A single-asset universe whose only asset is unavailable. -/
def stC2 : OLMARState :=
  { window := 1, eps := 13/10, window_hist := [1], eps_hist := [13/10],
    window_range := [], eps_range := [], b := [1], num_stocks := 1,
    data := { op := [[0]], cl := [[5]] }, data_train := none }

/-- A state whose current allocation already attains the epsilon target:
`dot(avail_b, ppr_avail) = 3 ≥ 2 = eps`. -/
def stC3 : OLMARState :=
  { window := 1, eps := 2, window_hist := [1], eps_hist := [2],
    window_range := [], eps_range := [], b := [1, 0], num_stocks := 2,
    data := { op := [[1, 1]], cl := [[1, 1]] }, data_train := none }

/-- A state with a nonempty one-point hyperparameter grid whose best pair
(3, 2) differs from the current pair (5, 3/2). -/
def stC4 : OLMARState :=
  { window := 5, eps := 3/2, window_hist := [5], eps_hist := [3/2],
    window_range := [3], eps_range := [2], b := [1], num_stocks := 1,
    data := { op := [[1]], cl := [[1]] }, data_train := none }

/-- A constant trial score for the tuner grid. -/
def scoreC4 : ℕ → ℚ → ℚ := fun _ _ => 7

/-- A one-day universe with positive open prices (update-rule witness). -/
def stC5W : OLMARState :=
  { window := 1, eps := 13/10, window_hist := [1], eps_hist := [13/10],
    window_range := [], eps_range := [], b := [1/2, 1/2], num_stocks := 2,
    data := { op := [[1, 2]], cl := [[3, 4]] }, data_train := none }

/-- A three-day live series with a two-day training series (window
extractor witness). -/
def stC6W : OLMARState :=
  { window := 2, eps := 13/10, window_hist := [2], eps_hist := [13/10],
    window_range := [], eps_range := [], b := [1/2, 1/2], num_stocks := 2,
    data := { op := [[1, 2], [3, 4], [5, 6]],
              cl := [[7, 8], [9, 10], [11, 12]] },
    data_train := some { op := [[100, 200], [101, 201]],
                         cl := [[102, 202], [103, 203]] } }

/-- A one-day universe with positive open prices (predictor witness). -/
def stC8W : OLMARState :=
  { window := 1, eps := 13/10, window_hist := [1], eps_hist := [13/10],
    window_range := [], eps_range := [], b := [1/2, 1/2], num_stocks := 2,
    data := { op := [[2, 4]], cl := [[3, 5]] }, data_train := none }

/-- The single-unavailable-asset universe, for the `init=True` path. -/
def stC9 : OLMARState :=
  { window := 1, eps := 13/10, window_hist := [1], eps_hist := [13/10],
    window_range := [], eps_range := [], b := [1], num_stocks := 1,
    data := { op := [[0]], cl := [[5]] }, data_train := none }

/-- A universe with two available assets and one unavailable asset. -/
def stC9W : OLMARState :=
  { window := 1, eps := 13/10, window_hist := [1], eps_hist := [13/10],
    window_range := [], eps_range := [], b := [1/3, 1/3, 1/3], num_stocks := 3,
    data := { op := [[1, 0, 2]], cl := [[3, 4, 5]] }, data_train := none }

/-- The state produced by constructing with valid arguments but a stored
results file holding `window = 0`, `eps = 1/2`. -/
def stC10 : OLMARState :=
  { window := 0, eps := 1/2, window_hist := [0], eps_hist := [1/2],
    window_range := [], eps_range := [], b := [], num_stocks := 2,
    data := { op := [[1, 1]], cl := [[1, 1]] }, data_train := none }

/-! ## Helper lemmas -/

theorem getD_map_range (f : ℕ → ℚ) (n i : ℕ) (hi : i < n) :
    ((List.range n).map f).getD i 0 = f i := by
  rw [List.getD_eq_getElem?_getD, List.getElem?_map, List.getElem?_range hi]
  rfl

theorem l1norm_nonneg (l : List ℚ) : 0 ≤ l1norm l := by
  apply List.sum_nonneg
  intro x hx
  rcases List.mem_map.mp hx with ⟨y, _, rfl⟩
  exact abs_nonneg y

theorem l2normSq_nonneg (l : List ℚ) : 0 ≤ l2normSq l := by
  apply List.sum_nonneg
  intro x hx
  rcases List.mem_map.mp hx with ⟨y, _, rfl⟩
  exact mul_self_nonneg y

theorem l1norm_smul (c : ℚ) (l : List ℚ) :
    l1norm (l.map (fun x => c * x)) = |c| * l1norm l := by
  unfold l1norm
  rw [List.map_map]
  have h : ((fun x => |x|) ∘ fun x => c * x) = fun x => |c| * |x| := by
    funext x
    simp [abs_mul]
  rw [h]
  exact List.sum_map_mul_left l (fun x => |x|) |c|

theorem sum_map_ite_count (l : List ℕ) (p : ℕ → Prop) [DecidablePred p] (c : ℚ) :
    (l.map (fun i => if p i then c else 0)).sum =
      ((l.filter (fun i => decide (p i))).length : ℚ) * c := by
  induction l with
  | nil => simp
  | cons a t ih =>
    simp only [List.map_cons, List.sum_cons, List.filter_cons, ih]
    by_cases h : p a
    · simp only [h, if_pos, decide_eq_true_eq, List.length_cons]
      push_cast
      ring
    · simp [h]

theorem le_foldl_max (l : List ℚ) (b : ℚ) : b ≤ l.foldl max b := by
  induction l generalizing b with
  | nil => exact le_refl b
  | cons a t ih => exact le_trans (le_max_left b a) (ih (max b a))

theorem mem_le_foldl_max (l : List ℚ) (b x : ℚ) (hx : x ∈ l) : x ≤ l.foldl max b := by
  induction l generalizing b with
  | nil => cases hx
  | cons a t ih =>
    rcases List.mem_cons.mp hx with h | h
    · subst h
      exact le_trans (le_max_right b x) (le_foldl_max t (max b x))
    · exact ih (max b a) h

theorem foldl_max_mem (l : List ℚ) (b : ℚ) : l.foldl max b = b ∨ l.foldl max b ∈ l := by
  induction l generalizing b with
  | nil => exact Or.inl rfl
  | cons a t ih =>
    rw [List.foldl_cons]
    rcases ih (max b a) with h | h
    · rcases max_choice b a with hba | hba
      · exact Or.inl (by rw [h, hba])
      · exact Or.inr (List.mem_cons.mpr (Or.inl (by rw [h, hba])))
    · exact Or.inr (List.mem_cons.mpr (Or.inr h))

theorem listMax_mem (l : List ℚ) (hl : l ≠ []) : listMax l ∈ l := by
  unfold listMax
  cases l with
  | nil => exact absurd rfl hl
  | cons a t =>
    simp only [List.headD_cons]
    rcases foldl_max_mem (a :: t) a with h | h
    · rw [h]
      exact List.mem_cons_self a t
    · exact h

theorem le_listMax (l : List ℚ) (x : ℚ) (hx : x ∈ l) : x ≤ listMax l := by
  unfold listMax
  cases l with
  | nil => cases hx
  | cons a t =>
    simp only [List.headD_cons]
    exact mem_le_foldl_max (a :: t) a x hx

theorem argmax_idx_lt_length (l : List ℚ) (hl : l ≠ []) : argmax_idx l < l.length := by
  apply List.findIdx_lt_length_of_exists
  exact ⟨listMax l, listMax_mem l hl, by simp⟩

theorem argmax_idx_spec (l : List ℚ) (hl : l ≠ []) :
    l.getD (argmax_idx l) 0 = listMax l := by
  have h := argmax_idx_lt_length l hl
  rw [List.getD_eq_getElem l 0 h]
  have h2 : (fun x => decide (x = listMax l)) l[argmax_idx l] = true :=
    List.findIdx_getElem (w := h)
  simpa using h2

theorem argmax_idx_first (l : List ℚ) (k : ℕ) (hk : k < argmax_idx l)
    (hl : k < l.length) : l.getD k 0 < listMax l := by
  have h := List.not_of_lt_findIdx hk
  have hne : l.getD k 0 ≠ listMax l := by
    rw [List.getD_eq_getElem l 0 hl]
    simpa using h
  have hmem : l.getD k 0 ∈ l := by
    rw [List.getD_eq_getElem l 0 hl]
    exact List.getElem_mem hl
  exact lt_of_le_of_ne (le_listMax l _ hmem) hne

theorem get_window_prices_today_op (s : OLMARState) (day window : ℕ) :
    (get_window_prices s day window).2.2 = s.data.op.getD day [] := by
  unfold get_window_prices
  split
  · rfl
  · split <;> rfl

/-! ## Claim theorems -/

/-- C7: constructing with `eps ≤ 1` or `window < 1` always fails with a
configuration error and constructs no instance (and these are the only
construction failures); the invalid value is never silently clamped. -/
theorem olmar_init_validation (md : MarketData) (mdt : Option MarketData)
    (window : Int) (eps : ℚ) (wr : List ℕ) (er : List ℚ) (b0 : List ℚ)
    (pr : Option HyperparamsFile) :
    exceptOk (OLMAR_init md mdt window eps wr er b0 pr) = false ↔
      (eps ≤ 1 ∨ window < 1) := by
  by_cases h1 : eps ≤ 1
  · simp [OLMAR_init, exceptOk, h1]
  · by_cases h2 : window < 1
    · simp [OLMAR_init, exceptOk, h1, h2]
    · simp [OLMAR_init, exceptOk, h1, h2]

/-- C10: passing a stored results file holding `window = 0`, `eps = 1/2`
to a construction whose explicit arguments pass validation yields a
successfully constructed instance whose effective `eps` is ≤ 1 and whose
effective `window` is < 1: the validation constrains only the explicitly
passed arguments. -/
theorem olmar_init_override_bypasses_validation :
    OLMAR_init ⟨[[1, 1]], [[1, 1]]⟩ none 10 (13/10) [] [] []
        (some { window := 0, eps := 1/2 }) = Except.ok stC10 ∧
      stC10.eps ≤ 1 ∧ stC10.window < 1 := by
  refine ⟨by norm_num [OLMAR_init, stC10], by norm_num [stC10], by norm_num [stC10]⟩

/-- C1 (counterexample): a valid construction (eps = 13/10 > 1, window = 1)
on whose day 0 every asset is unavailable; the returned allocation's 1-norm
is 0, not 1 (the Python code returns a NaN-filled vector there: it divides
by the zero 1-norm so that every entry is `inf * 0`). -/
theorem get_new_allocation_norm_counterexample :
    OLMAR_init ⟨[[0, 0]], [[5, 5]]⟩ none 1 (13/10) [] [] [1/2, 1/2] none
        = Except.ok stC1 ∧
      l1norm (get_new_allocation stC1 0 false) ≠ 1 := by
  constructor
  · norm_num [OLMAR_init, stC1]
  · norm_num [get_new_allocation, new_b_unnorm, predict_price_relatives,
      get_window_prices, pprAvail, avail_idxs, lambda_used, compute_lambda,
      listMean, colMean, silent_divide, l1norm, l2normSq, dotProd,
      get_uniform_allocation, pyTail, stC1, List.range_succ]

/-- C2 (counterexample): a valid construction (eps = 13/10 > 1, window = 1)
on whose day 0 the only asset is unavailable.  The unnormalized new
allocation's 1-norm is 0, yet `get_new_allocation` returns exactly the
unguarded division of that vector by its zero 1-norm — the same code path
as on any ordinary day, with no error, exception or flag — and the result
is not a 1-normalized vector (in the float code `1.0 / 0.0` is `inf` and
`inf * 0` is NaN, so the returned weights are NaN-filled; in the exact
rational model the result is the zero vector).  This refutes the claim
that the degenerate zero-norm state is explicitly signaled rather than
silently divided. -/
theorem zero_norm_not_signaled_counterexample :
    OLMAR_init ⟨[[0]], [[5]]⟩ none 1 (13/10) [] [] [1] none
        = Except.ok stC2 ∧
      l1norm (new_b_unnorm stC2 0) = 0 ∧
      get_new_allocation stC2 0 false =
        (new_b_unnorm stC2 0).map
          (fun x => (1 / l1norm (new_b_unnorm stC2 0)) * x) ∧
      l1norm (get_new_allocation stC2 0 false) ≠ 1 := by
  refine ⟨by norm_num [OLMAR_init, stC2], ?_, ?_, ?_⟩
  · norm_num [new_b_unnorm, predict_price_relatives, get_window_prices,
      pprAvail, avail_idxs, lambda_used, compute_lambda, listMean, colMean,
      silent_divide, l1norm, l2normSq, dotProd, pyTail, stC2, List.range_succ]
  · simp [get_new_allocation, stC2]
  · norm_num [get_new_allocation, new_b_unnorm, predict_price_relatives,
      get_window_prices, pprAvail, avail_idxs, lambda_used, compute_lambda,
      listMean, colMean, silent_divide, l1norm, l2normSq, dotProd,
      get_uniform_allocation, pyTail, stC2, List.range_succ]

/-- C2 (amended): whenever the unnormalized new allocation has 1-norm 0,
`get_new_allocation` does not signal the degenerate state: it still
returns the silent division of that vector by its zero 1-norm (the source
normalizes unconditionally, with no zero test or error path), and the
returned vector's 1-norm is not 1 — the normalization contract fails
(NaN-filled weights in the float code). -/
theorem zero_norm_silent_division (s : OLMARState) (day : ℕ)
    (h : l1norm (new_b_unnorm s day) = 0) :
    get_new_allocation s day false =
      (new_b_unnorm s day).map
        (fun x => (1 / l1norm (new_b_unnorm s day)) * x) ∧
    l1norm (get_new_allocation s day false) ≠ 1 := by
  have hni : ¬ ((false = true) ∧ s.data_train.isNone = true) :=
    fun hh => absurd hh.1 (by simp)
  constructor
  · unfold get_new_allocation
    rw [if_neg hni]
  · unfold get_new_allocation
    rw [if_neg hni, l1norm_smul, h]
    norm_num

/-- C2 witness: the amended theorem at the all-unavailable concrete day,
with the zero-norm hypothesis discharged by evaluation. -/
theorem zero_norm_silent_division_witness :
    get_new_allocation stC2 0 false =
      (new_b_unnorm stC2 0).map
        (fun x => (1 / l1norm (new_b_unnorm stC2 0)) * x) ∧
    l1norm (get_new_allocation stC2 0 false) ≠ 1 :=
  zero_norm_silent_division stC2 0
    (by norm_num [new_b_unnorm, predict_price_relatives, get_window_prices,
      pprAvail, avail_idxs, lambda_used, compute_lambda, listMean, colMean,
      silent_divide, l1norm, l2normSq, dotProd, pyTail, stC2, List.range_succ])

/-- C3 (counterexample): the step size used by `get_new_allocation` is 0
although the available predicted relatives `[3, 1]` are not all equal
(their dispersion `L² = 2 ≠ 0`): the current allocation's projected return
`dot([1, 0], [3, 1]) = 3` already exceeds `eps = 2`, so the clipped step
`max(0, (eps − dot)/L²)` is 0. -/
theorem lambda_zero_with_nonzero_dispersion :
    lambda_used stC3 [3, 1] 2 [0, 1] = 0 ∧
    l2normSq (([3, 1] : List ℚ).map (fun x => x - 2)) ≠ 0 ∧
    listMean [3, 1] = 2 := by
  refine ⟨?_, ?_, ?_⟩ <;>
    norm_num [lambda_used, compute_lambda, l2normSq, listMean, dotProd, stC3]

/-- Helper: the modelled uniform allocation has 1-norm 1 whenever at least
one asset is available. -/
theorem l1norm_uniform (n : ℕ) (op : List ℚ)
    (h : (avail_idxs op n).length ≠ 0) :
    l1norm (get_uniform_allocation n op) = 1 := by
  unfold l1norm get_uniform_allocation
  rw [List.map_map]
  have habs : ((fun x => |x|) ∘ fun i =>
      if 0 < op.getD i 0 then 1 / ((avail_idxs op n).length : ℚ) else 0) =
      fun i => if 0 < op.getD i 0 then 1 / ((avail_idxs op n).length : ℚ)
        else 0 := by
    funext i
    simp only [Function.comp_apply]
    by_cases hi : 0 < op.getD i 0
    · rw [if_pos hi]
      exact abs_of_nonneg (by positivity)
    · rw [if_neg hi]
      exact abs_zero
  rw [habs,
    sum_map_ite_count (List.range n) (fun i => 0 < op.getD i 0)
      (1 / ((avail_idxs op n).length : ℚ))]
  rw [show (List.range n).filter (fun i => decide (0 < op.getD i 0)) =
    avail_idxs op n from rfl]
  rw [mul_one_div]
  exact div_self (Nat.cast_ne_zero.mpr h)

/-- C3 (amended): for all inputs, the step size used by
`get_new_allocation` is ≥ 0 and ≤ 100000, and it is 0 exactly when the
dispersion `L²` of the available predicted relatives around `mean_ppr` is 0
**or** the current allocation's projected return over the available assets
already reaches `eps` (the clip `max(0, ·)` fires). -/
theorem lambda_used_range (s : OLMARState) (ppr_avail : List ℚ)
    (mean_ppr : ℚ) (idxs : List ℕ) :
    0 ≤ lambda_used s ppr_avail mean_ppr idxs ∧
    lambda_used s ppr_avail mean_ppr idxs ≤ 100000 ∧
    (lambda_used s ppr_avail mean_ppr idxs = 0 ↔
      (l2normSq (ppr_avail.map (fun x => x - mean_ppr)) = 0 ∨
        s.eps ≤ dotProd (idxs.map (fun i => s.b.getD i 0)) ppr_avail)) := by
  unfold lambda_used compute_lambda
  by_cases h : l2normSq (ppr_avail.map (fun x => x - mean_ppr)) = 0
  · simp [h]
  · rw [if_neg h]
    have hLpos : 0 < l2normSq (ppr_avail.map (fun x => x - mean_ppr)) :=
      lt_of_le_of_ne (l2normSq_nonneg _) (Ne.symm h)
    have hdiv : (s.eps - dotProd (idxs.map (fun i => s.b.getD i 0)) ppr_avail) /
        l2normSq (ppr_avail.map (fun x => x - mean_ppr)) ≤ 0 ↔
        s.eps ≤ dotProd (idxs.map (fun i => s.b.getD i 0)) ppr_avail := by
      rw [div_le_iff₀ hLpos, zero_mul, sub_nonpos]
    refine ⟨le_min (by norm_num) (le_max_left 0 _), min_le_left _ _, ?_, ?_⟩
    · intro hmin
      rcases min_cases (100000 : ℚ)
        (max 0 ((s.eps - dotProd (idxs.map (fun i => s.b.getD i 0)) ppr_avail) /
          l2normSq (ppr_avail.map (fun x => x - mean_ppr)))) with
        ⟨he, _⟩ | ⟨he, _⟩
      · rw [he] at hmin
        norm_num at hmin
      · rw [he] at hmin
        exact Or.inr (hdiv.mp (max_eq_left_iff.mp hmin))
    · intro hc
      rcases hc with hc | hc
      · exact absurd hc h
      · rw [max_eq_left (hdiv.mpr hc)]
        norm_num

/-- C1 (amended): for every state, day and `init` flag, the returned
allocation has length `num_stocks`; and provided the day's availability
set is nonempty and the unnormalized new allocation has nonzero 1-norm
(the non-degenerate case the spec itself sets apart), its 1-norm is
exactly 1. -/
theorem get_new_allocation_norm (s : OLMARState) (day : ℕ) (init : Bool)
    (h1 : (avail_idxs (s.data.op.getD day []) s.num_stocks).length ≠ 0)
    (h2 : l1norm (new_b_unnorm s day) ≠ 0) :
    (get_new_allocation s day init).length = s.num_stocks ∧
    l1norm (get_new_allocation s day init) = 1 := by
  unfold get_new_allocation
  by_cases hc : init ∧ s.data_train.isNone
  · rw [if_pos hc]
    exact ⟨by simp [get_uniform_allocation], l1norm_uniform _ _ h1⟩
  · rw [if_neg hc]
    constructor
    · simp [new_b_unnorm]
    · rw [l1norm_smul]
      have hpos : 0 < l1norm (new_b_unnorm s day) :=
        lt_of_le_of_ne (l1norm_nonneg _) (Ne.symm h2)
      rw [abs_of_pos (by positivity)]
      exact one_div_mul_cancel h2

/-- C1 witness: the amended theorem applied to a concrete valid state with
both assets available and a nonzero unnormalized norm. -/
theorem get_new_allocation_norm_witness :
    (get_new_allocation stC1W 0 false).length = stC1W.num_stocks ∧
    l1norm (get_new_allocation stC1W 0 false) = 1 := by
  apply get_new_allocation_norm stC1W 0 false
  · norm_num [avail_idxs, stC1W, List.range_succ]
  · norm_num [new_b_unnorm, predict_price_relatives, get_window_prices,
      pprAvail, avail_idxs, lambda_used, compute_lambda, listMean, colMean,
      silent_divide, l1norm, l2normSq, dotProd, pyTail, stC1W, List.range_succ]

/-- C8: for every asset index, the predicted price relative is the
arithmetic mean of the close-price window with today's opening row
appended, divided by today's opening price, with assets whose opening
price is zero/missing getting 0 instead of a division by zero. -/
theorem predict_price_relatives_spec (s : OLMARState) (day i : ℕ)
    (hi : i < s.num_stocks) :
    (predict_price_relatives s day).getD i 0 =
      if (s.data.op.getD day []).getD i 0 = 0 then 0
      else
        colMean ((get_window_prices s day s.window).2.1 ++
          [s.data.op.getD day []]) i / (s.data.op.getD day []).getD i 0 := by
  unfold predict_price_relatives
  rw [getD_map_range _ _ _ hi, get_window_prices_today_op]
  rfl

/-- C8 witness: the predictor property at a concrete state and index. -/
theorem predict_price_relatives_spec_witness :
    (predict_price_relatives stC8W 0).getD 0 0 =
      if (stC8W.data.op.getD 0 []).getD 0 0 = 0 then 0
      else
        colMean ((get_window_prices stC8W 0 stC8W.window).2.1 ++
          [stC8W.data.op.getD 0 []]) 0 / (stC8W.data.op.getD 0 []).getD 0 0 :=
  predict_price_relatives_spec stC8W 0 0 (by norm_num [stC8W])

/-- C5: in the update loop exactly the assets with strictly positive
predicted relative get `old weight + lambda * (ppr - mean_ppr)` as their
unnormalized weight, every other asset gets 0 (its prior weight is not
carried forward); in particular an unavailable asset (zero open price,
hence zero predicted relative) gets 0. -/
theorem new_b_update_rule (s : OLMARState) (day i : ℕ)
    (hi : i < s.num_stocks) :
    ((new_b_unnorm s day).getD i 0 =
      if 0 < (predict_price_relatives s day).getD i 0 then
        s.b.getD i 0 +
          lambda_used s (pprAvail s day) (listMean (pprAvail s day))
            (avail_idxs (s.data.op.getD day []) s.num_stocks) *
          ((predict_price_relatives s day).getD i 0 -
            listMean (pprAvail s day))
      else 0) ∧
    ((s.data.op.getD day []).getD i 0 = 0 →
      (new_b_unnorm s day).getD i 0 = 0) := by
  have hmain : (new_b_unnorm s day).getD i 0 =
      if 0 < (predict_price_relatives s day).getD i 0 then
        s.b.getD i 0 +
          lambda_used s (pprAvail s day) (listMean (pprAvail s day))
            (avail_idxs (s.data.op.getD day []) s.num_stocks) *
          ((predict_price_relatives s day).getD i 0 -
            listMean (pprAvail s day))
      else 0 := by
    unfold new_b_unnorm
    exact getD_map_range _ _ _ hi
  refine ⟨hmain, ?_⟩
  intro hop
  have hppr : (predict_price_relatives s day).getD i 0 = 0 := by
    unfold predict_price_relatives
    rw [getD_map_range _ _ _ hi, get_window_prices_today_op, hop]
    simp [silent_divide]
  rw [hmain, hppr]
  norm_num

/-- C5 witness: the update rule at a concrete state and index. -/
theorem new_b_update_rule_witness :
    (new_b_unnorm stC5W 0).getD 0 0 =
      if 0 < (predict_price_relatives stC5W 0).getD 0 0 then
        stC5W.b.getD 0 0 +
          lambda_used stC5W (pprAvail stC5W 0) (listMean (pprAvail stC5W 0))
            (avail_idxs (stC5W.data.op.getD 0 []) stC5W.num_stocks) *
          ((predict_price_relatives stC5W 0).getD 0 0 -
            listMean (pprAvail stC5W 0))
      else 0 :=
  (new_b_update_rule stC5W 0 0 (by norm_num [stC5W])).1

/-- C9 (counterexample): the single-unavailable-asset universe with
`init=True` and no training data: the returned allocation is the zero
vector, whose 1-norm is 0 rather than 1 — there is no available asset to
normalize over (in Python the uniform helper divides by the zero count). -/
theorem init_uniform_counterexample :
    get_new_allocation stC9 0 true = [0] ∧
    l1norm (get_new_allocation stC9 0 true) ≠ 1 := by
  constructor <;>
    norm_num [get_new_allocation, get_uniform_allocation, avail_idxs,
      l1norm, stC9, List.range_succ]

/-- C9 (amended): with `init=True` and no training data, provided at least
one asset is available, the returned allocation is the uniform allocation
over available assets — `1/(number available)` for each available asset and
0 for each unavailable one — normalized so its 1-norm is 1. -/
theorem init_uniform_allocation (s : OLMARState) (day : ℕ)
    (ht : s.data_train = none)
    (ha : (avail_idxs (s.data.op.getD day []) s.num_stocks).length ≠ 0) :
    get_new_allocation s day true =
      get_uniform_allocation s.num_stocks (s.data.op.getD day []) ∧
    (∀ i, i < s.num_stocks →
      (get_new_allocation s day true).getD i 0 =
        if 0 < (s.data.op.getD day []).getD i 0 then
          1 / ((avail_idxs (s.data.op.getD day []) s.num_stocks).length : ℚ)
        else 0) ∧
    l1norm (get_new_allocation s day true) = 1 := by
  have hcond : (true = true) ∧ s.data_train.isNone = true :=
    ⟨rfl, by rw [ht]; rfl⟩
  have heq : get_new_allocation s day true =
      get_uniform_allocation s.num_stocks (s.data.op.getD day []) := by
    unfold get_new_allocation
    exact if_pos hcond
  refine ⟨heq, ?_, ?_⟩
  · intro i hi
    rw [heq]
    unfold get_uniform_allocation
    exact getD_map_range _ _ _ hi
  · rw [heq]
    exact l1norm_uniform _ _ ha

/-- C9 witness: the amended theorem applied to a universe with two
available assets and one unavailable asset, instantiated at the
unavailable index. -/
theorem init_uniform_allocation_witness :
    get_new_allocation stC9W 0 true =
      get_uniform_allocation stC9W.num_stocks (stC9W.data.op.getD 0 []) ∧
    (get_new_allocation stC9W 0 true).getD 1 0 =
      (if 0 < (stC9W.data.op.getD 0 []).getD 1 0 then
        1 / ((avail_idxs (stC9W.data.op.getD 0 []) stC9W.num_stocks).length : ℚ)
      else 0) ∧
    l1norm (get_new_allocation stC9W 0 true) = 1 := by
  have h := init_uniform_allocation stC9W 0 rfl
    (by norm_num [avail_idxs, stC9W, List.range_succ])
  exact ⟨h.1, h.2.1 1 (by norm_num [stC9W]), h.2.2⟩

/-- C6: the window extractor's three cases.  For `day ≥ window` the
effective window is the requested `window` and the close matrix consists
of exactly `window` rows drawn from the live closes over days
`[day-window, day)`.  For `day < window` with no training series the
effective window is exactly `day` (empty for `day = 0`) and the rows are
the live closes over `[0, day)`.  For `day < window` with a training
series, the rows are the tail of the training closes followed in
chronological order by the live closes over `[0, day)`, with no live
contribution when `day = 0`. -/
theorem get_window_prices_cases (s : OLMARState) (day window : ℕ) :
    (window ≤ day →
      (get_window_prices s day window).1 = window ∧
      (day ≤ s.data.cl.length →
        (get_window_prices s day window).2.1.length = window) ∧
      (∀ j, j < window →
        (get_window_prices s day window).2.1.getD j [] =
          s.data.cl.getD (day - window + j) [])) ∧
    (day < window → s.data_train = none →
      (get_window_prices s day window).1 = day ∧
      (get_window_prices s day window).2.1 = s.data.cl.take day ∧
      (day = 0 → (get_window_prices s day window).2.1 = [])) ∧
    (∀ t, day < window → s.data_train = some t →
      (get_window_prices s day window).1 = window ∧
      (get_window_prices s day window).2.1 =
        pyTail t.cl (window - day) ++ s.data.cl.take day ∧
      (day = 0 →
        (get_window_prices s day window).2.1 = pyTail t.cl window)) := by
  refine ⟨?_, ?_, ?_⟩
  · intro hwd
    have hcond : s.data_train.isNone = true ∨ window ≤ day := Or.inr hwd
    have hnot : ¬ day < window := by omega
    simp only [get_window_prices]
    rw [if_pos hcond, if_neg hnot]
    refine ⟨rfl, ?_, ?_⟩
    · intro hlen
      simp only [List.length_take, List.length_drop]
      omega
    · intro j hj
      simp only [List.getD_eq_getElem?_getD, List.getElem?_take,
        List.getElem?_drop]
      rw [if_pos hj]
  · intro hdw ht
    have hcond : s.data_train.isNone = true ∨ window ≤ day :=
      Or.inl (by rw [ht]; rfl)
    simp only [get_window_prices]
    rw [if_pos hcond, if_pos hdw]
    refine ⟨rfl, ?_, ?_⟩
    · simp [Nat.sub_self]
    · intro h0
      subst h0
      simp
  · intro t hdw ht
    have hcond : ¬ (s.data_train.isNone = true ∨ window ≤ day) := by
      rw [ht]
      intro h
      rcases h with h | h
      · simp at h
      · omega
    simp only [get_window_prices]
    rw [if_neg hcond, ht]
    by_cases h0 : day = 0
    · subst h0
      rw [if_pos rfl]
      refine ⟨rfl, ?_, fun _ => rfl⟩
      simp [pyTail]
    · rw [if_neg h0]
      exact ⟨rfl, rfl, fun h => absurd h h0⟩

/-- C6 witness: the three window-extractor cases at concrete days of a
state with a two-day training series. -/
theorem get_window_prices_cases_witness :
    (get_window_prices stC6W 2 2).1 = 2 ∧
    (get_window_prices stC6W 2 2).2.1.length = 2 ∧
    (get_window_prices stC6W 2 2).2.1.getD 0 [] = stC6W.data.cl.getD 0 [] ∧
    (get_window_prices stC6W 1 2).2.1 =
      pyTail ({ op := [[100, 200], [101, 201]],
                cl := [[102, 202], [103, 203]] } : MarketData).cl (2 - 1) ++
        stC6W.data.cl.take 1 := by
  have h1 := (get_window_prices_cases stC6W 2 2).1 (by norm_num)
  have h3 := (get_window_prices_cases stC6W 1 2).2.2
    { op := [[100, 200], [101, 201]], cl := [[102, 202], [103, 203]] }
    (by norm_num) rfl
  exact ⟨h1.1, h1.2.1 (by norm_num [stC6W]), h1.2.2 0 (by norm_num), h3.2.1⟩

/-- C4 (counterexample): at `cur_day = 10` exactly 10 days have elapsed —
not fewer than 10 — and the candidate grid is nonempty with a best pair
(3, 2) different from the current hyperparameters, yet `tune_hyperparams`
changes nothing: the source guard requires `cur_day > 10`. -/
theorem tune_hyperparams_day10_counterexample :
    tune_hyperparams stC4 10 scoreC4 = stC4 ∧
    hyp_combos stC4 ≠ [] ∧
    stC4.window ≠ (tune_best stC4 scoreC4).1 := by
  refine ⟨?_, ?_, ?_⟩
  · unfold tune_hyperparams
    rw [if_neg (by omega)]
  · simp [hyp_combos, stC4]
  · norm_num [tune_best, hyp_combos, tune_scores, argmax_idx, listMax,
      List.findIdx_cons, stC4, scoreC4]

/-- C4 (amended): `tune_hyperparams` leaves the state unchanged when
`cur_day ≤ 10` (the guard requires strictly more than 10 elapsed days);
otherwise, for a nonempty candidate grid, it scores every `(window, eps)`
pair of the Cartesian product, adopts the first pair attaining the maximal
Sharpe ratio — its score equals the maximum, weakly dominates every
candidate, and strictly dominates every earlier candidate — sets it as the
current hyperparameters and appends it to both histories. -/
theorem tune_hyperparams_spec (s : OLMARState) (cur_day : ℕ)
    (score : ℕ → ℚ → ℚ) :
    (cur_day ≤ 10 → tune_hyperparams s cur_day score = s) ∧
    (10 < cur_day → hyp_combos s ≠ [] →
      argmax_idx (tune_scores s score) < (hyp_combos s).length ∧
      (tune_hyperparams s cur_day score).window = (tune_best s score).1 ∧
      (tune_hyperparams s cur_day score).eps = (tune_best s score).2 ∧
      (tune_scores s score).getD (argmax_idx (tune_scores s score)) 0 =
        listMax (tune_scores s score) ∧
      (∀ k, k < (tune_scores s score).length →
        (tune_scores s score).getD k 0 ≤
          (tune_scores s score).getD (argmax_idx (tune_scores s score)) 0) ∧
      (∀ k, k < argmax_idx (tune_scores s score) →
        (tune_scores s score).getD k 0 <
          (tune_scores s score).getD (argmax_idx (tune_scores s score)) 0) ∧
      (tune_hyperparams s cur_day score).window_hist =
        s.window_hist ++ [(tune_best s score).1] ∧
      (tune_hyperparams s cur_day score).eps_hist =
        s.eps_hist ++ [(tune_best s score).2]) := by
  constructor
  · intro h
    unfold tune_hyperparams
    rw [if_neg (by omega)]
  · intro h hc
    have hs : tune_scores s score ≠ [] := by
      unfold tune_scores
      intro hnil
      exact hc (List.map_eq_nil_iff.mp hnil)
    have hlen : (tune_scores s score).length = (hyp_combos s).length := by
      unfold tune_scores
      exact List.length_map _ _
    have hj := argmax_idx_lt_length _ hs
    have hspec := argmax_idx_spec _ hs
    have htune : tune_hyperparams s cur_day score = { s with
        window := (tune_best s score).1,
        eps := (tune_best s score).2,
        eps_hist := s.eps_hist ++ [(tune_best s score).2],
        window_hist := s.window_hist ++ [(tune_best s score).1] } := by
      unfold tune_hyperparams
      rw [if_pos (by omega)]
    refine ⟨by omega, by rw [htune], by rw [htune], hspec, ?_, ?_,
      by rw [htune], by rw [htune]⟩
    · intro k hk
      rw [hspec]
      apply le_listMax
      rw [List.getD_eq_getElem _ _ hk]
      exact List.getElem_mem hk
    · intro k hk
      rw [hspec]
      exact argmax_idx_first _ k hk (by omega)

/-- C4 witness: at `cur_day = 11` the tuner adopts the grid's best pair
(3, 2) and appends it to both histories. -/
theorem tune_hyperparams_spec_witness :
    (tune_hyperparams stC4 11 scoreC4).window = 3 ∧
    (tune_hyperparams stC4 11 scoreC4).eps = 2 ∧
    (tune_hyperparams stC4 11 scoreC4).window_hist = [5, 3] ∧
    (tune_hyperparams stC4 11 scoreC4).eps_hist = [3/2, 2] := by
  have h := (tune_hyperparams_spec stC4 11 scoreC4).2 (by norm_num)
    (by simp [hyp_combos, stC4])
  have hb : tune_best stC4 scoreC4 = (3, 2) := by
    norm_num [tune_best, hyp_combos, tune_scores, argmax_idx, listMax,
      List.findIdx_cons, stC4, scoreC4]
  refine ⟨?_, ?_, ?_, ?_⟩
  · rw [h.2.1, hb]
  · rw [h.2.2.1, hb]
  · rw [h.2.2.2.2.2.2.1, hb]
    rfl
  · rw [h.2.2.2.2.2.2.2, hb]
    rfl
